import Mathlib

/-!
# Verification of the calino-image-server history and license subsystems

Shallow embedding of the two server variants in this repository:

* the PostgreSQL-backed server (`src/unnamed/part_000`): `user_history` and
  `license_usage` tables, endpoints `GET/POST /api/history/:userId`,
  `POST /api/history/:userId/update-frame`, `POST /api/verify-license`;
* the flat-file server (`src/server.js`): per-user JSON array,
  endpoints `GET/POST /api/history/:userId`.

Database tables are modelled as lists of rows; each endpoint handler is a
pure function from the request and the database state to a response and the
new state.  JavaScript string operations (`trim`, `toLowerCase`,
`includes`) are modelled at the character level, and SQL `ILIKE` by an
executable pattern matcher.
-/

namespace Calino

/-- A JavaScript value as it appears in a JSON request-body field.
`undef` models an absent field. -/
inductive JVal where
  | undef
  | null
  | str (s : String)
  | num (n : Int)
deriving DecidableEq, Repr

/-- JavaScript truthiness of a body field, as used in checks like
`if (!itemId || !frameId)`. -/
def JVal.truthy : JVal → Bool
  | .undef => false
  | .null => false
  | .str s => s != ""
  | .num n => n != 0

/-- JavaScript truthiness of an optional string field. -/
def optTruthy : Option String → Bool
  | none => false
  | some s => s != ""

/-- JS `String.prototype.toLowerCase`, modelled per character. -/
def jsToLower (s : String) : String := ⟨s.data.map Char.toLower⟩

/-- JS `String.prototype.trim`, modelled at the character level:
whitespace is stripped from both ends. -/
def jsTrim (s : String) : String :=
  ⟨((s.data.dropWhile Char.isWhitespace).reverse.dropWhile Char.isWhitespace).reverse⟩

/-- Boolean prefix test on character lists. -/
def isPrefixB : List Char → List Char → Bool
  | [], _ => true
  | _ :: _, [] => false
  | a :: xs, b :: ys => a == b && isPrefixB xs ys

/-- Boolean infix test on character lists; `isInfixB needle hay` models
JS `hay.includes(needle)`. -/
def isInfixB (needle hay : List Char) : Bool :=
  match hay with
  | [] => needle.isEmpty
  | _ :: t => isPrefixB needle hay || isInfixB needle t

/-- SQL `LIKE`/`ILIKE` pattern matching over characters, case-insensitive
(`ILIKE`): `%` matches any sequence (so the rest of the pattern must match
some suffix of the text), `_` matches any single character, and a
backslash escapes the following pattern character. -/
def likeMatch : List Char → List Char → Bool
  | [], s => s.isEmpty
  | c :: ps, s =>
    if c = '%' then s.tails.any (fun s2 => likeMatch ps s2)
    else if c = '\\' then
      match ps, s with
      | e :: ps', d :: s' => (e.toLower == d.toLower) && likeMatch ps' s'
      | _, _ => false
    else
      match s with
      | [] => false
      | d :: s' => if c = '_' then likeMatch ps s' else (c.toLower == d.toLower) && likeMatch ps s'

/-- `ILIKE` on strings: does `s` match the pattern `pat`? -/
def ilikeB (pat s : String) : Bool := likeMatch pat.data s.data

/-- The spec's search predicate: `search` occurs in `prompt` as a
case-insensitive literal substring. -/
def promptContainsCI (search prompt : String) : Prop :=
  (search.data.map Char.toLower) <:+: (prompt.data.map Char.toLower)

instance (search prompt : String) : Decidable (promptContainsCI search prompt) :=
  List.decidableInfix _ _

/-! ## License redemption (`src/unnamed/part_000`, `POST /api/verify-license`) -/

/-- A row of the `license_usage` table. `activated_at` is a timestamp
(`DEFAULT CURRENT_TIMESTAMP`), modelled as a natural number. -/
structure LicenseRow where
  license_key : String
  user_id : String
  product_id : String
  product_tier : String
  flowers_granted : Nat
  activated_at : Nat
  gumroad_data : String
  status : String
deriving DecidableEq, Repr

/-- Responses of `POST /api/verify-license`.  `alreadyUsed` abstracts the
200 response `{success:false, message: "...activated on <activated_at> by
user <user_id>...", alreadyUsed:true}` by the two values interpolated into
its message; `serverError` is the 500 response of the outer catch (and of
the missing-token check). -/
inductive VLResponse where
  | success (tier : String) (flowers : Nat) (purchase : String)
  | alreadyUsed (userId : String) (activatedAt : Nat)
  | verificationFailed (message : String)
  | badRequest
  | serverError
deriving DecidableEq, Repr

/-- HTTP status code of each verify-license response. -/
def VLResponse.httpStatus : VLResponse → Nat
  | .success .. => 200
  | .alreadyUsed .. => 200
  | .verificationFailed _ => 200
  | .badRequest => 400
  | .serverError => 500

/-- Body of a `POST /api/verify-license` request; `none` models an absent
field. -/
structure VLRequest where
  productId : Option String
  licenseKey : Option String
  userId : Option String
deriving DecidableEq, Repr

/-- Outcome of the single Gumroad verification call made by one request:
`ok` is `response.ok && data.success` with the purchase payload,
`rejected` is a well-formed negative answer (carrying `data.message` when
present), `unreachable` is a thrown fetch/parse error. -/
inductive VerifierResult where
  | ok (purchase : String)
  | rejected (message : Option String)
  | unreachable
deriving DecidableEq, Repr

/-- The static `productTierMap` object literal. -/
def productTierMap : List (String × String × Nat) :=
  [("2FqGqjM16Jjs0NDRtncN4g==", ("starter", 50)),
   ("wIY3NX2VLnJ48nTz0ZVTIA==", ("creator", 130)),
   ("711rWT3AqbdSnNL0p9MxIw==", ("pro", 300))]

/-- `productTierMap[productId] || { tier: 'unknown', flowers: 0 }`. -/
def lookupTier (productId : String) : String × Nat :=
  match productTierMap.find? (fun e => e.1 == productId) with
  | some e => e.2
  | none => ("unknown", 0)

/-- `SELECT * FROM license_usage WHERE license_key = $1`, first row. -/
def lookupLicense (db : List LicenseRow) (key : String) : Option LicenseRow :=
  db.find? (fun r => r.license_key == key)

/-- The post-verification insert phase of `POST /api/verify-license`
(tier lookup plus `INSERT INTO license_usage`).  The table's `UNIQUE`
constraint on `license_key` makes the insert fail when a row for the key
already exists; the thrown error is re-raised past the inner `dbError`
handler and the outer catch answers with the generic 500 response. -/
def racingInsert (db : List LicenseRow) (productId licenseKey userId purchase : String)
    (now : Nat) : VLResponse × List LicenseRow :=
  if db.any (fun r => r.license_key == licenseKey) then
    (.serverError, db)
  else
    let productInfo := lookupTier productId
    (.success productInfo.1 productInfo.2 purchase,
     db ++ [{ license_key := licenseKey, user_id := userId, product_id := productId,
              product_tier := productInfo.1, flowers_granted := productInfo.2,
              activated_at := now, gumroad_data := purchase, status := "active" }])

/-- Result of one `POST /api/verify-license` request: the response, the
database afterwards, and whether the external verifier was contacted. -/
structure VLOutcome where
  response : VLResponse
  db : List LicenseRow
  contactedVerifier : Bool
deriving DecidableEq, Repr

/-- `POST /api/verify-license`: required-field check, step-1 lookup of the
key, access-token check, Gumroad call, then tier lookup and insert. -/
def verifyLicense (db : List LicenseRow) (req : VLRequest) (tokenConfigured : Bool)
    (verifier : VerifierResult) (now : Nat) : VLOutcome :=
  if !(optTruthy req.productId) || !(optTruthy req.licenseKey) || !(optTruthy req.userId) then
    { response := .badRequest, db := db, contactedVerifier := false }
  else
    match lookupLicense db (req.licenseKey.getD "") with
    | some usage =>
      { response := .alreadyUsed usage.user_id usage.activated_at, db := db,
        contactedVerifier := false }
    | none =>
      if !tokenConfigured then
        { response := .serverError, db := db, contactedVerifier := false }
      else
        match verifier with
        | .unreachable =>
          { response := .serverError, db := db, contactedVerifier := true }
        | .rejected msg =>
          { response := .verificationFailed (msg.getD "License verification failed with Gumroad"),
            db := db, contactedVerifier := true }
        | .ok purchase =>
          let r := racingInsert db (req.productId.getD "") (req.licenseKey.getD "")
            (req.userId.getD "") purchase now
          { response := r.1, db := r.2, contactedVerifier := true }

/-- One of two concurrent redemption attempts racing on the same key. -/
structure RedeemAttempt where
  productId : String
  licenseKey : String
  userId : String
  purchase : String
  now : Nat
deriving DecidableEq, Repr

/-- Two concurrent redemption attempts that have both already passed the
step-1 lookup against the same observed state `db0` and both received an
authentic verifier answer; the database serializes their inserts, here
first `a` then `b`.  Returns both responses and the final table. -/
def raceRedeem (db0 : List LicenseRow) (a b : RedeemAttempt) :
    (VLResponse × VLResponse) × List LicenseRow :=
  let r1 := racingInsert db0 a.productId a.licenseKey a.userId a.purchase a.now
  let r2 := racingInsert r1.2 b.productId b.licenseKey b.userId b.purchase b.now
  ((r1.1, r2.1), r2.2)

/-! ## History, PostgreSQL variant (`src/unnamed/part_000`) -/

/-- A row of the `user_history` table.  `row_id` is the `SERIAL` primary
key; nullable columns are `Option`s; `timestamp` is modelled as a natural
number. -/
structure HistoryRow where
  row_id : Nat
  user_id : String
  item_id : String
  prompt : String
  image_url : Option String
  original_image_url : Option String
  frame_id : Option String
  frame_name : Option String
  quality : Option String
  width : Option Int
  height : Option Int
  timestamp : Nat
deriving DecidableEq, Repr

/-- The `user_history` table together with the `SERIAL` sequence. -/
structure PgDb where
  rows : List HistoryRow
  nextId : Nat
deriving DecidableEq, Repr

/-- Body of a `POST /api/history/:userId` request; `none` models an absent
field (stored as SQL `NULL`).  `timestamp` defaults to the current time
when absent. -/
structure HistoryItem where
  id : Option String
  prompt : Option String
  imageUrl : Option String
  originalImageUrl : Option String
  frameId : Option String
  frameName : Option String
  quality : Option String
  width : Option Int
  height : Option Int
  timestamp : Option Nat
deriving DecidableEq, Repr

/-- The rows of one user (`WHERE user_id = $1`). -/
def userRows (db : PgDb) (u : String) : List HistoryRow :=
  db.rows.filter (fun r => r.user_id == u)

/-- `ORDER BY timestamp DESC` comparator. -/
def tsDesc (a b : HistoryRow) : Prop := b.timestamp ≤ a.timestamp

instance : DecidableRel tsDesc := fun a b => Nat.decLe b.timestamp a.timestamp

instance : IsTotal HistoryRow tsDesc :=
  ⟨fun a b => Nat.le_total b.timestamp a.timestamp⟩

instance : IsTrans HistoryRow tsDesc :=
  ⟨fun _ _ _ h1 h2 => Nat.le_trans h2 h1⟩

/-- `INSERT INTO user_history ... ON CONFLICT (item_id) DO UPDATE SET
prompt, image_url, original_image_url, timestamp`.  `none` models the
statement throwing a `NOT NULL` violation (`item_id` or `prompt` absent).
On conflict only the four listed columns are replaced; otherwise a fresh
row is appended with the next serial id. -/
def pgUpsert (db : PgDb) (u : String) (it : HistoryItem) (now : Nat) : Option PgDb :=
  match it.id, it.prompt with
  | some iid, some p =>
    let ts := it.timestamp.getD now
    if db.rows.any (fun r => r.item_id == iid) then
      some { db with rows := db.rows.map (fun r =>
        if r.item_id == iid then
          { r with prompt := p, image_url := it.imageUrl,
                   original_image_url := it.originalImageUrl, timestamp := ts }
        else r) }
    else
      let newRow : HistoryRow :=
        { row_id := db.nextId, user_id := u, item_id := iid, prompt := p,
          image_url := it.imageUrl, original_image_url := it.originalImageUrl,
          frame_id := it.frameId, frame_name := it.frameName, quality := it.quality,
          width := it.width, height := it.height, timestamp := ts }
      some { rows := db.rows ++ [newRow], nextId := db.nextId + 1 }
  | _, _ => none

/-- The ids selected by `SELECT id FROM user_history WHERE user_id = $2
ORDER BY timestamp DESC LIMIT 50`. -/
def keepIds (db : PgDb) (u : String) : List Nat :=
  ((List.insertionSort tsDesc (userRows db u)).take 50).map (fun r => r.row_id)

/-- The retention `DELETE`: drop the user's rows whose id is not among the
50 most recent by timestamp. -/
def pgRetention (db : PgDb) (u : String) : PgDb :=
  { db with rows := db.rows.filter (fun r =>
      !(r.user_id == u) || (keepIds db u).contains r.row_id) }

/-- Responses of the relational `POST /api/history/:userId`:
`ok totalItems` is the 200 `{success:true, totalItems}` response,
`dbError` the 500 `Failed to save history` response of the catch block. -/
inductive SaveResponse where
  | ok (totalItems : Nat)
  | dbError
deriving DecidableEq, Repr

/-- HTTP status code of each save-history response. -/
def SaveResponse.httpStatus : SaveResponse → Nat
  | .ok _ => 200
  | .dbError => 500

/-- `POST /api/history/:userId` (relational variant): upsert, then
`COUNT(*)` for the user, then the retention `DELETE`; the response carries
the count taken before the delete. -/
def pgSaveHistory (db : PgDb) (u : String) (it : HistoryItem) (now : Nat) :
    SaveResponse × PgDb :=
  match pgUpsert db u it now with
  | none => (.dbError, db)
  | some db1 =>
    let total := (userRows db1 u).length
    (.ok total, pgRetention db1 u)

/-- Responses of `POST /api/history/:userId/update-frame`. -/
inductive UFResponse where
  | ok (updatedRows : Nat)
  | notFound
  | badRequest
deriving DecidableEq, Repr

/-- HTTP status code of each update-frame response. -/
def UFResponse.httpStatus : UFResponse → Nat
  | .ok _ => 200
  | .notFound => 404
  | .badRequest => 400

/-- How the pg driver renders a JS parameter bound to a varchar column. -/
def JVal.toParam : JVal → Option String
  | .str s => some s
  | .num n => some (toString n)
  | .null => none
  | .undef => none

/-- `POST /api/history/:userId/update-frame`: truthiness check on `itemId`
and `frameId` (400 before any database access), then `UPDATE user_history
SET frame_id = $1 WHERE user_id = $2 AND item_id = $3`; 404 when no row
matched. -/
def updateFrame (db : PgDb) (u : String) (itemId frameId : JVal) :
    UFResponse × PgDb :=
  if !itemId.truthy || !frameId.truthy then
    (.badRequest, db)
  else
    let hit := fun (r : HistoryRow) =>
      r.user_id == u && r.item_id == (itemId.toParam.getD "")
    let count := db.rows.countP hit
    let db' : PgDb := { db with rows := db.rows.map (fun r =>
      if hit r then { r with frame_id := frameId.toParam } else r) }
    if count > 0 then (.ok count, db') else (.notFound, db')

/-- `if (search && search.trim())`: is the ILIKE clause added? -/
def searchActive (search : String) : Bool :=
  !(search == "") && !(jsTrim search == "")

/-- The WHERE clause of the relational `GET /api/history/:userId`:
`prompt ILIKE '%' || trim(search) || '%'` when the search is active. -/
def pgMatches (search : String) (r : HistoryRow) : Bool :=
  if searchActive search then ilikeB ("%" ++ jsTrim search ++ "%") r.prompt else true

/-- The user's rows passing the search filter (shared by the page query
and the COUNT query). -/
def pgFiltered (db : PgDb) (u : String) (search : String) : List HistoryRow :=
  db.rows.filter (fun r => r.user_id == u && pgMatches search r)

/-- The `limit` query parameter: the string `'all'` or a parsed number. -/
inductive LimitParam where
  | all
  | num (n : Nat)
deriving DecidableEq, Repr

/-- Response of `GET /api/history/:userId`.  `totalPages = none` models a
non-finite JS number: `Math.ceil(totalItems / limitNum)` is `NaN` when
both operands are 0 and `Infinity` when only `limitNum` is. -/
structure PgQueryResult where
  items : List HistoryRow
  totalPages : Option Nat
  currentPage : Nat
  totalItems : Nat
deriving DecidableEq, Repr

/-- `GET /api/history/:userId` (relational variant): filter, `ORDER BY
timestamp DESC`, `LIMIT/OFFSET` unless `limit = 'all'`; `totalItems` from
the COUNT query with the same filter; `limitNum` is `totalItems` for
`'all'`. -/
def pgQuery (db : PgDb) (u : String) (page : Nat) (limit : LimitParam)
    (search : String) : PgQueryResult :=
  let filtered := pgFiltered db u search
  let sorted := List.insertionSort tsDesc filtered
  let items := match limit with
    | .all => sorted
    | .num n => (sorted.drop (page * n)).take n
  let totalItems := filtered.length
  let limitNum := match limit with
    | .all => totalItems
    | .num n => n
  { items := items
    totalPages := if limitNum = 0 then none else some ((totalItems + limitNum - 1) / limitNum)
    currentPage := page
    totalItems := totalItems }

/-! ## History, flat-file variant (`src/server.js`) -/

/-- A stored history item of the flat-file variant, restricted to the
fields the endpoints inspect. -/
structure FlatItem where
  id : String
  prompt : String
  timestamp : Nat
deriving DecidableEq, Repr

/-- `POST /api/history/:userId` (flat-file variant): `history.unshift(item)`
then `history.slice(0, 200)`; responds with the stored length. -/
def flatSave (history : List FlatItem) (item : FlatItem) : List FlatItem × Nat :=
  let h := (item :: history).take 200
  (h, h.length)

/-- The flat-file search filter:
`item.prompt.toLowerCase().includes(search.toLowerCase())`, skipped when
`search` is falsy. -/
def flatFiltered (history : List FlatItem) (search : String) : List FlatItem :=
  if search == "" then history
  else history.filter (fun it => isInfixB (jsToLower search).data (jsToLower it.prompt).data)

/-- Response of the flat-file `GET /api/history/:userId`.  As in
`PgQueryResult`, `totalPages = none` models a non-finite JS number. -/
structure FlatQueryResult where
  items : List FlatItem
  totalPages : Option Nat
  currentPage : Nat
  totalItems : Nat
deriving DecidableEq, Repr

/-- `GET /api/history/:userId` (flat-file variant): filter, then
`slice(page*limit, page*limit + limit)`; `totalPages` from the filtered
length but `totalItems` from the unfiltered one; no sorting. -/
def flatQuery (history : List FlatItem) (page limit : Nat) (search : String) :
    FlatQueryResult :=
  let filtered := flatFiltered history search
  { items := (filtered.drop (page * limit)).take limit
    totalPages := if limit = 0 then none else some ((filtered.length + limit - 1) / limit)
    currentPage := page
    totalItems := history.length }

/-! ## Retention bookkeeping (relational history) -/

/-- The serial ids of the table's rows. -/
def rowIds (db : PgDb) : List Nat := db.rows.map (fun r => r.row_id)

/-- Well-formedness of the table: serial ids are distinct and below the
sequence value, as the `SERIAL` primary key guarantees. -/
def PgDb.WF (db : PgDb) : Prop :=
  (rowIds db).Nodup ∧ ∀ r ∈ db.rows, r.row_id < db.nextId

/-- The rows selected by the retention subquery (the user's 50 most recent
rows in the model's deterministic sort order). -/
def keepList (db : PgDb) (u : String) : List HistoryRow :=
  (List.insertionSort tsDesc (userRows db u)).take 50

/-- The pattern characters carry no special LIKE meaning. -/
def noWild (p : List Char) : Prop := ∀ c ∈ p, c ≠ '%' ∧ c ≠ '_' ∧ c ≠ '\\'

instance (p : List Char) : Decidable (noWild p) :=
  List.decidableBAll _ p

/-! ## Concrete sample data used by counterexamples and witnesses -/

/-- Sample history row for user `"u"`: serial id and timestamp `i`,
item id `"i" ++ toString i`. -/
def mkRow (i : Nat) : HistoryRow :=
  { row_id := i, user_id := "u", item_id := "i" ++ toString i, prompt := "p",
    image_url := none, original_image_url := none, frame_id := none,
    frame_name := none, quality := none, width := none, height := none,
    timestamp := i }

/-- A user already holding 50 history rows, the retention cap. -/
def db50 : PgDb := ⟨(List.range 50).map mkRow, 50⟩

/-- A fresh, never-stored history item with the newest timestamp. -/
def item50 : HistoryItem :=
  ⟨some "i50", some "p", none, none, none, none, none, none, none, some 50⟩

/-- The table state after upserting `item50` into `db50`. -/
def db51 : PgDb := ⟨db50.rows ++ [mkRow 50], 51⟩

/-- 50 stored flat-file history items. -/
def flat50 : List FlatItem :=
  (List.range 50).map (fun i => ⟨"i" ++ toString i, "p", i⟩)

/-- First racing redemption attempt on key `"K"`. -/
def raceA : RedeemAttempt := ⟨"prodX", "K", "u1", "g1", 1⟩

/-- Second racing redemption attempt on the same key `"K"`. -/
def raceB : RedeemAttempt := ⟨"prodX", "K", "u2", "g2", 2⟩

/-- An existing redemption of key `"K"` by user `"alice"` at time 42. -/
def usedRow : LicenseRow := ⟨"K", "alice", "prodX", "starter", 50, 42, "g", "active"⟩

/-- A history row of user `"u"` with item id `"a"` and a frame set. -/
def frameRow : HistoryRow :=
  { row_id := 0, user_id := "u", item_id := "a", prompt := "p",
    image_url := none, original_image_url := none, frame_id := some "f1",
    frame_name := none, quality := none, width := none, height := none,
    timestamp := 1 }

/-- A small three-row table for user `"u"`, timestamps 1, 2, 3. -/
def db3 : PgDb := ⟨[mkRow 0, mkRow 1, mkRow 2], 3⟩

/-- Two flat-file items whose stored order disagrees with timestamp order
(the item with timestamp 50 was submitted after the one with 100). -/
def flatOutOfOrder : List FlatItem := [⟨"b", "p", 50⟩, ⟨"a", "p", 100⟩]

/-- A history row of user `"u"` whose prompt is `"abc"`. -/
def rowAbc : HistoryRow :=
  { row_id := 0, user_id := "u", item_id := "x", prompt := "abc",
    image_url := none, original_image_url := none, frame_id := none,
    frame_name := none, quality := none, width := none, height := none,
    timestamp := 1 }

/-- A history row of user `"u"` whose prompt is `"cat"`. -/
def rowCat : HistoryRow :=
  { row_id := 0, user_id := "u", item_id := "y", prompt := "cat",
    image_url := none, original_image_url := none, frame_id := none,
    frame_name := none, quality := none, width := none, height := none,
    timestamp := 1 }

/-! ## Helper lemmas -/

/-- A step-1 miss means no row of the table carries the key. -/
theorem lookupLicense_none_any (db : List LicenseRow) (key : String)
    (h : lookupLicense db key = none) :
    db.any (fun r => r.license_key == key) = false := by
  rw [List.any_eq_false]
  intro r hr
  exact List.find?_eq_none.mp h r hr

/-! ## Claim C4 -/

/-- C4: when a `license_usage` row for the request's key already exists,
`POST /api/verify-license` answers with the already-used failure carrying
that row's `user_id` and `activated_at`, leaves the table unchanged, and
does not contact the external verifier. -/
theorem c4_already_used (db : List LicenseRow) (req : VLRequest) (tok : Bool)
    (v : VerifierResult) (now : Nat) (r : LicenseRow)
    (hp : optTruthy req.productId = true) (hk : optTruthy req.licenseKey = true)
    (hu : optTruthy req.userId = true)
    (hfound : lookupLicense db (req.licenseKey.getD "") = some r) :
    verifyLicense db req tok v now =
      { response := .alreadyUsed r.user_id r.activated_at, db := db,
        contactedVerifier := false } := by
  unfold verifyLicense
  rw [hp, hk, hu, hfound]
  simp

/-- Witness for C4 at a concrete table and request. -/
theorem c4_witness :
    lookupLicense [usedRow] "K" = some usedRow ∧
    verifyLicense [usedRow] ⟨some "prodX", some "K", some "bob"⟩ true (.ok "g2") 7 =
      { response := .alreadyUsed "alice" 42, db := [usedRow],
        contactedVerifier := false } :=
  ⟨by decide,
   c4_already_used [usedRow] ⟨some "prodX", some "K", some "bob"⟩ true (.ok "g2") 7
     usedRow (by decide) (by decide) (by decide) (by decide)⟩

/-! ## Claim C9 -/

/-- C9: redeeming a valid, never-redeemed key whose product id is not in
the static `productTierMap` still succeeds: the response carries tier
`"unknown"` and 0 credits, and a redemption row with those values is
persisted. -/
theorem c9_unknown_product (db : List LicenseRow) (purchase : String) (now : Nat)
    (pid key uid : String)
    (hp : pid ≠ "") (hk : key ≠ "") (hu : uid ≠ "")
    (hnew : lookupLicense db key = none)
    (hprod : pid ∉ productTierMap.map Prod.fst) :
    verifyLicense db ⟨some pid, some key, some uid⟩ true (.ok purchase) now =
      { response := .success "unknown" 0 purchase,
        db := db ++ [{ license_key := key, user_id := uid, product_id := pid,
                       product_tier := "unknown", flowers_granted := 0,
                       activated_at := now, gumroad_data := purchase,
                       status := "active" }],
        contactedVerifier := true } := by
  have htier : lookupTier pid = ("unknown", 0) := by
    unfold lookupTier
    rw [List.find?_eq_none.mpr]
    intro e he hbeq
    exact hprod (List.mem_map.mpr ⟨e, he, by simpa using hbeq⟩)
  have hany := lookupLicense_none_any db key hnew
  unfold verifyLicense
  simp only [optTruthy, Option.getD_some]
  rw [if_neg (by simp [hp, hk, hu]), hnew]
  unfold racingInsert
  rw [hany, htier]
  simp

/-- Witness for C9 at a concrete request with an unrecognized product id. -/
theorem c9_witness :
    lookupLicense [] "K2" = none ∧
    "prodX" ∉ productTierMap.map Prod.fst ∧
    verifyLicense [] ⟨some "prodX", some "K2", some "carol"⟩ true (.ok "buy") 3 =
      { response := .success "unknown" 0 "buy",
        db := [{ license_key := "K2", user_id := "carol", product_id := "prodX",
                 product_tier := "unknown", flowers_granted := 0,
                 activated_at := 3, gumroad_data := "buy", status := "active" }],
        contactedVerifier := true } :=
  ⟨by decide, by decide,
   c9_unknown_product [] "buy" 3 "prodX" "K2" "carol" (by decide) (by decide)
     (by decide) (by decide) (by decide)⟩

/-! ## Claim C10 -/

/-- C10: a falsy `frameId` (absent, null, empty string, or 0) makes
`POST /api/history/:userId/update-frame` answer 400 before any lookup and
leaves the table untouched, whatever `itemId` and the table contents. -/
theorem c10_falsy_frame (db : PgDb) (u : String) (itemId frameId : JVal)
    (h : frameId.truthy = false) :
    updateFrame db u itemId frameId = (.badRequest, db) ∧
    UFResponse.badRequest.httpStatus = 400 := by
  refine ⟨?_, rfl⟩
  unfold updateFrame
  rw [h]
  simp

/-- Witness for C10: `frameId = 0` is rejected even though a row matching
the user and item exists. -/
theorem c10_witness :
    JVal.truthy (.num 0) = false ∧
    updateFrame ⟨[frameRow], 1⟩ "u" (.str "a") (.num 0) =
      (.badRequest, ⟨[frameRow], 1⟩) :=
  ⟨rfl, (c10_falsy_frame ⟨[frameRow], 1⟩ "u" (.str "a") (.num 0) rfl).1⟩

/-! ## Claim C1 -/

/-- C1 counterexample: two attempts racing on the never-seen key `"K"`
both pass the step-1 lookup against the empty table; the losing insert
hits the uniqueness violation, but the response it produces is the generic
500 `serverError` of the outer catch, not the already-used failure naming
the winner (`"u1"`, activated at 1). -/
theorem c1_counterexample :
    lookupLicense [] "K" = none ∧
    (raceRedeem [] raceA raceB).1.2 = .serverError ∧
    VLResponse.serverError ≠ .alreadyUsed "u1" 1 ∧
    VLResponse.httpStatus .serverError = 500 := by decide

/-- C1 amended: when two attempts race past step 1 on the same unseen key,
only the first insert succeeds, the table ends with exactly one row for
the key, and the loser observes the uniqueness violation as the generic
500 `serverError` response (no already-used conversion, no re-read). -/
theorem c1_amended (db0 : List LicenseRow) (a b : RedeemAttempt)
    (hkey : b.licenseKey = a.licenseKey)
    (hstep1 : lookupLicense db0 a.licenseKey = none) :
    (raceRedeem db0 a b).1.1 =
      .success (lookupTier a.productId).1 (lookupTier a.productId).2 a.purchase ∧
    (raceRedeem db0 a b).1.2 = .serverError ∧
    ((raceRedeem db0 a b).2.countP (fun r => r.license_key == a.licenseKey)) = 1 := by
  have hany := lookupLicense_none_any db0 a.licenseKey hstep1
  have hzero : db0.countP (fun r => r.license_key == a.licenseKey) = 0 := by
    rw [List.countP_eq_zero]
    intro r hr
    exact List.find?_eq_none.mp hstep1 r hr
  unfold raceRedeem racingInsert
  rw [hkey, hany]
  simp [List.any_append, List.countP_append, hany, hzero]

/-- Witness for C1's amended statement at the concrete race of
`raceA` and `raceB` on the empty table. -/
theorem c1_amended_witness :
    lookupLicense [] "K" = none ∧
    (raceRedeem [] raceA raceB).1.1 = .success "unknown" 0 "g1" ∧
    (raceRedeem [] raceA raceB).1.2 = .serverError ∧
    ((raceRedeem [] raceA raceB).2.countP (fun r => r.license_key == "K")) = 1 := by
  refine ⟨by decide, ?_⟩
  have h := c1_amended [] raceA raceB rfl (by decide)
  exact ⟨h.1, h.2.1, h.2.2⟩

/-! ## Claim C8 -/

/-- C8 counterexample: a history upsert whose body has an `id` but no
`prompt` is answered by the relational `POST /api/history/:userId` with
the 500 database-error response, not a 400 validation error. -/
theorem c8_counterexample :
    (pgSaveHistory ⟨[], 0⟩ "u"
        ⟨some "x", none, none, none, none, none, none, none, none, none⟩ 5).1 =
      .dbError ∧
    SaveResponse.httpStatus .dbError = 500 := by decide

/-- C8 amended: verify-license and update-frame do answer 400 on a missing
required field, but the history upsert performs no validation: a body
without `id` or without `prompt` reaches the INSERT and surfaces as the
500 database-error response. -/
theorem c8_amended :
    (∀ (db : List LicenseRow) (req : VLRequest) (tok : Bool) (v : VerifierResult)
        (now : Nat),
      optTruthy req.productId = false ∨ optTruthy req.licenseKey = false ∨
        optTruthy req.userId = false →
      (verifyLicense db req tok v now).response = .badRequest ∧
        VLResponse.httpStatus .badRequest = 400) ∧
    (∀ (db : PgDb) (u : String) (itemId frameId : JVal),
      itemId.truthy = false ∨ frameId.truthy = false →
      (updateFrame db u itemId frameId).1 = .badRequest ∧
        UFResponse.httpStatus .badRequest = 400) ∧
    (∀ (db : PgDb) (u : String) (it : HistoryItem) (now : Nat),
      it.id = none ∨ it.prompt = none →
      (pgSaveHistory db u it now).1 = .dbError ∧
        SaveResponse.httpStatus .dbError = 500) := by
  refine ⟨?_, ?_, ?_⟩
  · intro db req tok v now h
    refine ⟨?_, rfl⟩
    unfold verifyLicense
    rcases h with h | h | h <;> rw [h] <;> simp
  · intro db u itemId frameId h
    refine ⟨?_, rfl⟩
    unfold updateFrame
    rcases h with h | h <;> rw [h] <;> simp
  · intro db u it now h
    refine ⟨?_, rfl⟩
    unfold pgSaveHistory pgUpsert
    rcases h with h | h
    · rw [h]
    · rw [h]
      cases it.id <;> simp

/-- Witness for C8's amended statement: a verify-license body without
`licenseKey`, an update-frame body without `frameId`, and a history body
without `prompt`. -/
theorem c8_witness :
    ((verifyLicense [] ⟨some "p", none, some "u"⟩ true (.ok "g") 1).response =
        .badRequest ∧ VLResponse.httpStatus .badRequest = 400) ∧
    ((updateFrame ⟨[], 0⟩ "u" (.str "a") .undef).1 = .badRequest ∧
        UFResponse.httpStatus .badRequest = 400) ∧
    ((pgSaveHistory ⟨[], 0⟩ "u"
        ⟨some "x", none, none, none, none, none, none, none, none, none⟩ 5).1 =
          .dbError ∧ SaveResponse.httpStatus .dbError = 500) :=
  ⟨c8_amended.1 [] ⟨some "p", none, some "u"⟩ true (.ok "g") 1 (Or.inr (Or.inl rfl)),
   c8_amended.2.1 ⟨[], 0⟩ "u" (.str "a") .undef (Or.inr rfl),
   c8_amended.2.2 ⟨[], 0⟩ "u"
     ⟨some "x", none, none, none, none, none, none, none, none, none⟩ 5 (Or.inr rfl)⟩

/-! ## Claim C6 -/

/-- C6 counterexample: the flat-file variant reports the unfiltered store
size (2) as `totalItems` although only one record matches `"cat"`; and the
relational variant with `limit = 'all'` and zero matching records computes
`Math.ceil(0 / 0)`, a non-finite number, instead of 1. -/
theorem c6_counterexample :
    (flatQuery [⟨"b", "a blue dog", 2⟩, ⟨"a", "a red cat", 1⟩] 0 10 "cat").totalItems
      = 2 ∧
    (flatFiltered [⟨"b", "a blue dog", 2⟩, ⟨"a", "a red cat", 1⟩] "cat").length = 1 ∧
    (pgQuery ⟨[], 0⟩ "u" 0 .all "").totalPages = none ∧
    (none : Option Nat) ≠ some 1 := by decide

/-- C6 amended: the relational variant reports the filtered matching count
and `totalPages = ceil(matching / pageSize)`; with the `'all'` sentinel it
reports 1 page only when at least one record matches and a non-finite
number when none do.  The flat-file variant computes `totalPages` from the
filtered count but reports the unfiltered store size as `totalItems`. -/
theorem c6_amended :
    (∀ (db : PgDb) (u : String) (page : Nat) (search : String),
       (pgQuery db u page .all search).totalItems = (pgFiltered db u search).length ∧
       (0 < (pgFiltered db u search).length →
         (pgQuery db u page .all search).totalPages = some 1) ∧
       ((pgFiltered db u search).length = 0 →
         (pgQuery db u page .all search).totalPages = none)) ∧
    (∀ (db : PgDb) (u : String) (page n : Nat) (search : String), 0 < n →
       (pgQuery db u page (.num n) search).totalItems = (pgFiltered db u search).length ∧
       (pgQuery db u page (.num n) search).totalPages =
         some (((pgFiltered db u search).length + n - 1) / n)) ∧
    (∀ (h : List FlatItem) (page n : Nat) (search : String), 0 < n →
       (flatQuery h page n search).totalItems = h.length ∧
       (flatQuery h page n search).totalPages =
         some (((flatFiltered h search).length + n - 1) / n)) := by
  refine ⟨?_, ?_, ?_⟩
  · intro db u page search
    refine ⟨rfl, ?_, ?_⟩
    · intro hm
      show (if (pgFiltered db u search).length = 0 then none
            else some (((pgFiltered db u search).length +
              (pgFiltered db u search).length - 1) / (pgFiltered db u search).length))
          = some 1
      rw [if_neg (by omega)]
      congr 1
      exact Nat.div_eq_of_lt_le (by omega) (by omega)
    · intro hm
      show (if (pgFiltered db u search).length = 0 then none
            else some (((pgFiltered db u search).length +
              (pgFiltered db u search).length - 1) / (pgFiltered db u search).length))
          = none
      rw [if_pos hm]
  · intro db u page n search hn
    refine ⟨rfl, ?_⟩
    show (if n = 0 then none
          else some (((pgFiltered db u search).length + n - 1) / n)) = _
    rw [if_neg (by omega)]
  · intro h page n search hn
    refine ⟨rfl, ?_⟩
    show (if n = 0 then none
          else some (((flatFiltered h search).length + n - 1) / n)) = _
    rw [if_neg (by omega)]

/-- Witness for C6's amended statement on concrete stores. -/
theorem c6_witness :
    ((pgQuery ⟨[rowCat], 1⟩ "u" 0 .all "").totalItems = 1 ∧
     (pgQuery ⟨[rowCat], 1⟩ "u" 0 .all "").totalPages = some 1) ∧
    ((pgQuery ⟨[rowCat], 1⟩ "u" 0 (.num 10) "").totalPages = some 1) ∧
    ((flatQuery flatOutOfOrder 0 10 "p").totalItems = 2 ∧
     (flatQuery flatOutOfOrder 0 10 "p").totalPages = some 1) :=
  ⟨⟨(c6_amended.1 ⟨[rowCat], 1⟩ "u" 0 "").1,
    (c6_amended.1 ⟨[rowCat], 1⟩ "u" 0 "").2.1 (by decide)⟩,
   (c6_amended.2.1 ⟨[rowCat], 1⟩ "u" 0 10 "" (by decide)).2,
   ⟨(c6_amended.2.2 flatOutOfOrder 0 10 "p" (by decide)).1,
    (c6_amended.2.2 flatOutOfOrder 0 10 "p" (by decide)).2⟩⟩

/-! ## Retention lemmas (relational history) -/

theorem keepIds_eq (db : PgDb) (u : String) :
    keepIds db u = (keepList db u).map (fun r => r.row_id) := rfl

theorem userRows_retention (db : PgDb) (u : String) :
    userRows (pgRetention db u) u =
      (userRows db u).filter (fun r => (keepIds db u).contains r.row_id) := by
  unfold userRows pgRetention
  simp only [List.filter_filter]
  apply List.filter_congr
  intro r _
  cases h1 : (r.user_id == u) <;> cases h2 : (keepIds db u).contains r.row_id <;>
    simp [h1, h2]

theorem keepList_subset_userRows (db : PgDb) (u : String) :
    keepList db u ⊆ userRows db u := fun _r hr =>
  (List.perm_insertionSort tsDesc (userRows db u)).subset
    (List.take_sublist 50 _ |>.subset hr)

theorem userRows_subset_rows (db : PgDb) (u : String) :
    userRows db u ⊆ db.rows := (List.filter_sublist db.rows).subset

theorem nodup_ids_userRows (db : PgDb) (u : String) (hnd : (rowIds db).Nodup) :
    ((userRows db u).map (fun r => r.row_id)).Nodup := by
  unfold rowIds at hnd
  exact ((List.filter_sublist db.rows).map (fun r => r.row_id)).nodup hnd

theorem nodup_ids_keepList (db : PgDb) (u : String) (hnd : (rowIds db).Nodup) :
    ((keepList db u).map (fun r => r.row_id)).Nodup := by
  have hperm : List.Perm (List.insertionSort tsDesc (userRows db u)) (userRows db u) :=
    List.perm_insertionSort tsDesc (userRows db u)
  have hs : ((List.insertionSort tsDesc (userRows db u)).map (fun r => r.row_id)).Nodup :=
    (hperm.map (fun r : HistoryRow => r.row_id)).nodup_iff.mpr
      (nodup_ids_userRows db u hnd)
  exact ((List.take_sublist 50 _).map (fun r : HistoryRow => r.row_id)).nodup hs

/-- With distinct serial ids, a row of the table is determined by its id. -/
theorem row_eq_of_id_eq (db : PgDb) (hnd : (rowIds db).Nodup)
    (a b : HistoryRow) (ha : a ∈ db.rows) (hb : b ∈ db.rows)
    (h : a.row_id = b.row_id) : a = b := by
  unfold rowIds at hnd
  exact List.inj_on_of_nodup_map hnd ha hb h

/-- Membership in the user's surviving rows after the retention delete. -/
theorem mem_userRows_retention (db : PgDb) (u : String) (r : HistoryRow) :
    r ∈ userRows (pgRetention db u) u ↔
      r ∈ userRows db u ∧ r.row_id ∈ keepIds db u := by
  rw [userRows_retention, List.mem_filter]
  constructor
  · rintro ⟨h1, h2⟩
    exact ⟨h1, by simpa [List.elem_iff] using h2⟩
  · rintro ⟨h1, h2⟩
    exact ⟨h1, by simpa [List.elem_iff] using h2⟩

/-- After the retention delete the user's surviving rows are exactly (up
to order) the 50 most recent ones selected by the subquery. -/
theorem userRows_retention_perm (db : PgDb) (u : String)
    (hnd : (rowIds db).Nodup) :
    List.Perm (userRows (pgRetention db u) u) (keepList db u) := by
  have hSUsub : userRows (pgRetention db u) u ⊆ keepList db u := by
    intro r hr
    obtain ⟨hUR, hid⟩ := (mem_userRows_retention db u r).mp hr
    rw [keepIds_eq] at hid
    obtain ⟨k, hk, hkid⟩ := List.mem_map.mp hid
    have : r = k :=
      row_eq_of_id_eq db hnd r k (userRows_subset_rows db u hUR)
        (userRows_subset_rows db u (keepList_subset_userRows db u hk)) hkid.symm
    rwa [this]
  have hKsub : keepList db u ⊆ userRows (pgRetention db u) u := by
    intro r hr
    exact (mem_userRows_retention db u r).mpr
      ⟨keepList_subset_userRows db u hr,
       keepIds_eq db u ▸ List.mem_map_of_mem (fun r => r.row_id) hr⟩
  have hndSU : (userRows (pgRetention db u) u).Nodup := by
    have h1 : ((userRows (pgRetention db u) u).map (fun r => r.row_id)).Nodup := by
      rw [userRows_retention]
      exact ((List.filter_sublist (userRows db u)).map (fun r => r.row_id)).nodup
        (nodup_ids_userRows db u hnd)
    exact h1.of_map _
  have hndK : (keepList db u).Nodup := (nodup_ids_keepList db u hnd).of_map _
  exact (List.perm_ext_iff_of_nodup hndSU hndK).mpr
    (fun r => ⟨fun h => hSUsub h, fun h => hKsub h⟩)

/-- The surviving count is the old count capped at 50. -/
theorem userRows_retention_length (db : PgDb) (u : String)
    (hnd : (rowIds db).Nodup) :
    (userRows (pgRetention db u) u).length = min 50 (userRows db u).length := by
  rw [(userRows_retention_perm db u hnd).length_eq]
  unfold keepList
  rw [List.length_take, List.length_insertionSort]

/-- Every surviving row of the user is at least as recent as every row the
retention delete evicted. -/
theorem retention_dominates (db : PgDb) (u : String) (hnd : (rowIds db).Nodup)
    (r r' : HistoryRow) (hr : r ∈ userRows (pgRetention db u) u)
    (hr' : r' ∈ userRows db u) (hgone : r' ∉ (pgRetention db u).rows) :
    r'.timestamp ≤ r.timestamp := by
  have hsorted : List.Sorted tsDesc (List.insertionSort tsDesc (userRows db u)) :=
    List.sorted_insertionSort tsDesc (userRows db u)
  have hkeep : r ∈ keepList db u := (userRows_retention_perm db u hnd).subset hr
  have hmem : r' ∈ List.insertionSort tsDesc (userRows db u) :=
    (List.perm_insertionSort tsDesc (userRows db u)).mem_iff.mpr hr'
  have hnotkeep : r' ∉ keepList db u := by
    intro hk
    have : r' ∈ userRows (pgRetention db u) u :=
      (userRows_retention_perm db u hnd).mem_iff.mpr hk
    exact hgone (userRows_subset_rows (pgRetention db u) u this)
  have hdrop : r' ∈ (List.insertionSort tsDesc (userRows db u)).drop 50 := by
    rcases List.mem_append.mp
      (by rw [List.take_append_drop 50 (List.insertionSort tsDesc (userRows db u))]
          exact hmem) with h | h
    · exact absurd h hnotkeep
    · exact h
  have hpw := List.pairwise_append.mp
    (by rw [List.take_append_drop 50 (List.insertionSort tsDesc (userRows db u))]
        exact hsorted)
  exact hpw.2.2 r hkeep r' hdrop

/-- When the user holds at most 50 rows the retention delete removes
nothing. -/
theorem retention_noop (db : PgDb) (u : String)
    (hle : (userRows db u).length ≤ 50) : pgRetention db u = db := by
  unfold pgRetention
  rw [List.filter_eq_self.mpr]
  intro r hr
  cases h1 : (r.user_id == u)
  · simp [h1]
  · have hUR : r ∈ userRows db u := List.mem_filter.mpr ⟨hr, h1⟩
    have hsortlen : (List.insertionSort tsDesc (userRows db u)).length ≤ 50 := by
      rw [List.length_insertionSort]; exact hle
    have hkeep : r ∈ keepList db u := by
      unfold keepList
      rw [List.take_of_length_le hsortlen]
      exact (List.perm_insertionSort tsDesc (userRows db u)).mem_iff.mpr hUR
    have hid : r.row_id ∈ keepIds db u :=
      keepIds_eq db u ▸ List.mem_map_of_mem (fun r => r.row_id) hkeep
    simp only [Bool.not_true, Bool.false_or]
    simpa [List.elem_iff] using hid

/-- The upsert preserves table well-formedness: an in-place update keeps
the ids, an insert appends the fresh sequence value. -/
theorem pgUpsert_WF (db : PgDb) (u : String) (it : HistoryItem) (now : Nat)
    (db1 : PgDb) (hwf : PgDb.WF db) (h : pgUpsert db u it now = some db1) :
    PgDb.WF db1 := by
  obtain ⟨hnd, hlt⟩ := hwf
  unfold pgUpsert at h
  rcases hid : it.id with _ | iid <;> rw [hid] at h <;>
    rcases hp : it.prompt with _ | p <;> rw [hp] at h
  · exact absurd h (by simp)
  · exact absurd h (by simp)
  · exact absurd h (by simp)
  · dsimp only at h
    split at h
    · -- conflict: in-place update
      injection h with h
      subst h
      refine ⟨?_, ?_⟩
      · unfold rowIds at hnd ⊢
        simp only [List.map_map]
        rw [List.map_congr_left (g := fun r : HistoryRow => r.row_id) ?_]
        · exact hnd
        · intro r _
          simp only [Function.comp]
          split <;> rfl
      · intro r hr
        simp only [List.mem_map] at hr
        obtain ⟨r0, hr0, hfr⟩ := hr
        have : r.row_id = r0.row_id := by
          rw [← hfr]; split <;> rfl
        rw [this]
        exact hlt r0 hr0
    · -- no conflict: fresh insert
      injection h with h
      subst h
      refine ⟨?_, ?_⟩
      · unfold rowIds at hnd ⊢
        simp only [List.map_append, List.map_cons, List.map_nil]
        rw [List.nodup_append]
        refine ⟨hnd, List.nodup_singleton _, ?_⟩
        intro a ha hb
        simp only [List.mem_singleton] at hb
        obtain ⟨r0, hr0, hfr⟩ := List.mem_map.mp ha
        have := hlt r0 hr0
        omega
      · intro r hr
        rcases List.mem_append.mp hr with h' | h'
        · exact Nat.lt_succ_of_lt (hlt r h')
        · simp only [List.mem_singleton] at h'
          rw [h']
          exact Nat.lt_succ_self _

/-! ## Claim C2 -/

/-- C2 counterexample: appending a 51st record (fresh item id) to a
flat-file user already holding 50 leaves 51 records, because the
flat-file variant retains up to 200, not 50. -/
theorem c2_counterexample :
    ((flatSave flat50 ⟨"i50", "p", 50⟩).1).length = 51 := by decide

/-- C2 amended: in the relational variant a successful append is the
upsert followed by the retention delete, which caps the user at 50 rows,
keeps only rows at least as recent as every evicted row, and under
distinct timestamps evicts only rows strictly older than all survivors;
the flat-file variant instead retains up to 200 records by insertion
position. -/
theorem c2_amended :
    (∀ (db : PgDb) (u : String) (it : HistoryItem) (now n : Nat) (db' : PgDb),
       pgSaveHistory db u it now = (.ok n, db') →
       ∃ db1, pgUpsert db u it now = some db1 ∧ n = (userRows db1 u).length ∧
         db' = pgRetention db1 u) ∧
    (∀ (db : PgDb) (u : String) (it : HistoryItem) (now : Nat) (db1 : PgDb),
       PgDb.WF db → pgUpsert db u it now = some db1 → PgDb.WF db1) ∧
    (∀ (db : PgDb) (u : String), (rowIds db).Nodup →
       (userRows (pgRetention db u) u).length = min 50 (userRows db u).length ∧
       (∀ r ∈ userRows (pgRetention db u) u, ∀ r' ∈ userRows db u,
         r' ∉ (pgRetention db u).rows → r'.timestamp ≤ r.timestamp) ∧
       ((userRows db u).Pairwise (fun a b => a.timestamp ≠ b.timestamp) →
        ∀ r ∈ userRows (pgRetention db u) u, ∀ r' ∈ userRows db u,
          r' ∉ (pgRetention db u).rows → r'.timestamp < r.timestamp)) ∧
    (∀ (history : List FlatItem) (item : FlatItem),
       (flatSave history item).1.length = min (history.length + 1) 200) := by
  refine ⟨?_, ?_, ?_, ?_⟩
  · intro db u it now n db' h
    unfold pgSaveHistory at h
    cases hup : pgUpsert db u it now with
    | none => rw [hup] at h; exact absurd h (by simp)
    | some db1 =>
      rw [hup] at h
      simp only [Prod.mk.injEq, SaveResponse.ok.injEq] at h
      exact ⟨db1, rfl, h.1.symm, h.2.symm⟩
  · exact fun db u it now db1 hwf h => pgUpsert_WF db u it now db1 hwf h
  · intro db u hnd
    refine ⟨userRows_retention_length db u hnd, ?_, ?_⟩
    · exact fun r hr r' hr' hgone => retention_dominates db u hnd r r' hr hr' hgone
    · intro hdist r hr r' hr' hgone
      have hle := retention_dominates db u hnd r r' hr hr' hgone
      have hrUR : r ∈ userRows db u := ((mem_userRows_retention db u r).mp hr).1
      have hne_row : r' ≠ r := by
        intro he
        subst he
        exact hgone (userRows_subset_rows (pgRetention db u) u hr)
      have hne : r'.timestamp ≠ r.timestamp :=
        hdist.forall (fun _ _ hab => hab.symm) hr' hrUR hne_row
      omega
  · intro history item
    unfold flatSave
    simp only [List.length_take, List.length_cons]
    omega

/-- Witness for C2's amended statement on concrete stores. -/
theorem c2_witness :
    ((userRows (pgRetention db3 "u") "u").length =
      min 50 (userRows db3 "u").length) ∧
    (flatSave flat50 ⟨"i50", "p", 50⟩).1.length = min (flat50.length + 1) 200 :=
  ⟨(c2_amended.2.2.1 db3 "u" (by decide)).1,
   c2_amended.2.2.2 flat50 ⟨"i50", "p", 50⟩⟩

/-! ## Claim C5 -/

/-- C5 counterexample: a user already at the 50-row cap appends a fresh
item; the response reports 51 although only 50 rows remain after the
retention delete, because the count is taken before the delete. -/
theorem c5_counterexample :
    (pgSaveHistory db50 "u" item50 99).1 = .ok 51 ∧
    (userRows (pgSaveHistory db50 "u" item50 99).2 "u").length = 50 := by decide

/-- C5 amended: the count returned by a successful append is the one taken
after the upsert but before the retention delete, while the rows actually
retained are that count capped at 50 — so a user at the cap is answered
with 51. -/
theorem c5_amended (db : PgDb) (u : String) (it : HistoryItem) (now : Nat)
    (db1 : PgDb) (hnd : (rowIds db1).Nodup)
    (hup : pgUpsert db u it now = some db1) :
    (pgSaveHistory db u it now).1 = .ok (userRows db1 u).length ∧
    (userRows (pgSaveHistory db u it now).2 u).length =
      min 50 (userRows db1 u).length := by
  unfold pgSaveHistory
  rw [hup]
  exact ⟨rfl, userRows_retention_length db1 u hnd⟩

/-- Witness for C5's amended statement: the 50-row user appending a 51st
item is answered 51 while 50 rows remain. -/
theorem c5_witness :
    pgUpsert db50 "u" item50 99 = some db51 ∧
    (pgSaveHistory db50 "u" item50 99).1 = .ok (userRows db51 "u").length ∧
    (userRows (pgSaveHistory db50 "u" item50 99).2 "u").length =
      min 50 (userRows db51 "u").length := by
  refine ⟨by decide, ?_⟩
  have h := c5_amended db50 "u" item50 99 db51 (by decide) (by decide)
  exact ⟨h.1, h.2⟩

/-! ## Claim C3 -/

/-- C3 counterexample: the flat-file variant has no upsert: re-submitting
item id `"a"` with a new prompt stores a second record with the same id
and raises the user's count from 1 to 2. -/
theorem c3_counterexample :
    (flatSave (flatSave [] ⟨"a", "p1", 1⟩).1 ⟨"a", "p2", 2⟩).1 =
      [⟨"a", "p2", 2⟩, ⟨"a", "p1", 1⟩] ∧
    (flatSave (flatSave [] ⟨"a", "p1", 1⟩).1 ⟨"a", "p2", 2⟩).2 = 2 := by decide

/-- C3 amended: the relational variant does upsert in place — after
re-submitting an existing item id with a new prompt, exactly one row for
that item id is stored, it carries the latest prompt, and the user's
count is unchanged; the flat-file variant instead duplicates
(`c3_counterexample`). -/
theorem c3_amended (db : PgDb) (u : String) (it : HistoryItem) (now : Nat)
    (iid p' : String) (r0 : HistoryRow)
    (hid : it.id = some iid) (hpr : it.prompt = some p')
    (hr0 : r0 ∈ db.rows) (hr0i : r0.item_id = iid)
    (hcap : (userRows db u).length ≤ 50)
    (hone : db.rows.countP (fun r => r.item_id == iid) = 1) :
    (pgSaveHistory db u it now).1 = .ok (userRows db u).length ∧
    ((pgSaveHistory db u it now).2.rows.countP (fun r => r.item_id == iid)) = 1 ∧
    (∀ r ∈ (pgSaveHistory db u it now).2.rows, r.item_id = iid → r.prompt = p') ∧
    (userRows (pgSaveHistory db u it now).2 u).length =
      (userRows db u).length := by
  have hany : db.rows.any (fun r => r.item_id == iid) = true :=
    List.any_eq_true.mpr ⟨r0, hr0, by simp [hr0i]⟩
  set f := fun r : HistoryRow =>
    if r.item_id == iid then
      { r with prompt := p', image_url := it.imageUrl,
               original_image_url := it.originalImageUrl,
               timestamp := it.timestamp.getD now }
    else r with hf
  have hup : pgUpsert db u it now = some { db with rows := db.rows.map f } := by
    unfold pgUpsert
    rw [hid, hpr]
    simp only [hany, if_true]
  have hfu : ∀ r : HistoryRow, (f r).user_id = r.user_id := by
    intro r
    rw [hf]
    dsimp only
    split <;> rfl
  have hfi : ∀ r : HistoryRow, (f r).item_id = r.item_id := by
    intro r
    rw [hf]
    dsimp only
    split <;> rfl
  have huser : userRows { db with rows := db.rows.map f } u =
      (userRows db u).map f := by
    show (db.rows.map f).filter (fun r => r.user_id == u) =
      ((db.rows.filter (fun r => r.user_id == u)).map f)
    rw [List.filter_map]
    congr 1
    apply List.filter_congr
    intro r _
    simp [Function.comp, hfu r]
  have hlen : (userRows { db with rows := db.rows.map f } u).length =
      (userRows db u).length := by
    rw [huser, List.length_map]
  have hnoop : pgRetention { db with rows := db.rows.map f } u =
      { db with rows := db.rows.map f } :=
    retention_noop _ u (le_of_eq_of_le hlen hcap)
  have hres : pgSaveHistory db u it now =
      (.ok (userRows db u).length, { db with rows := db.rows.map f }) := by
    unfold pgSaveHistory
    rw [hup]
    simp only [hnoop, hlen]
  refine ⟨by rw [hres], ?_, ?_, ?_⟩
  · rw [hres]
    dsimp only
    rw [List.countP_map]
    refine Eq.trans (List.countP_congr ?_) hone
    intro r _
    simp [Function.comp, hfi r]
  · intro r hr hri
    rw [hres] at hr
    dsimp only at hr
    simp only [List.mem_map] at hr
    obtain ⟨r1, hr1, hfr⟩ := hr
    by_cases hc : (r1.item_id == iid) = true
    · rw [← hfr, hf]
      simp [hc]
    · exfalso
      apply hc
      rw [← hfr] at hri
      rw [hfi r1] at hri
      simp [hri]
  · rw [hres]
    exact hlen

/-- Witness for C3's amended statement: re-submitting item `"a"` with the
new prompt `"p2"` updates the single stored row in place. -/
theorem c3_witness :
    (pgSaveHistory ⟨[frameRow], 1⟩ "u"
        ⟨some "a", some "p2", none, none, none, none, none, none, none, some 9⟩ 9).1 =
      .ok 1 ∧
    ((pgSaveHistory ⟨[frameRow], 1⟩ "u"
        ⟨some "a", some "p2", none, none, none, none, none, none, none, some 9⟩ 9).2.rows.countP
      (fun r => r.item_id == "a")) = 1 ∧
    (∀ r ∈ (pgSaveHistory ⟨[frameRow], 1⟩ "u"
        ⟨some "a", some "p2", none, none, none, none, none, none, none, some 9⟩ 9).2.rows,
      r.item_id = "a" → r.prompt = "p2") ∧
    (userRows (pgSaveHistory ⟨[frameRow], 1⟩ "u"
        ⟨some "a", some "p2", none, none, none, none, none, none, none, some 9⟩ 9).2 "u").length = 1 := by
  have h := c3_amended ⟨[frameRow], 1⟩ "u"
    ⟨some "a", some "p2", none, none, none, none, none, none, none, some 9⟩ 9
    "a" "p2" frameRow rfl rfl (by decide) rfl (by decide) (by decide)
  exact ⟨h.1, h.2.1, h.2.2.1, h.2.2.2⟩

/-! ## LIKE-pattern lemmas -/

theorem likeMatch_percent (ps s : List Char) :
    likeMatch ('%' :: ps) s = true ↔
      ∃ s2, s2 <:+ s ∧ likeMatch ps s2 = true := by
  rw [likeMatch.eq_def]
  dsimp only
  rw [if_pos rfl, List.any_eq_true]
  constructor
  · rintro ⟨s2, hs2, h⟩
    exact ⟨s2, (List.mem_tails s2 s).mp hs2, h⟩
  · rintro ⟨s2, hs2, h⟩
    exact ⟨s2, (List.mem_tails s2 s).mpr hs2, h⟩

theorem likeMatch_plain_nil (c : Char) (ps : List Char)
    (hc1 : c ≠ '%') (hc3 : c ≠ '\\') : likeMatch (c :: ps) [] = false := by
  rw [likeMatch.eq_def]
  simp only [if_neg hc1, if_neg hc3]

theorem likeMatch_plain_cons (c : Char) (ps : List Char) (d : Char) (s' : List Char)
    (hc1 : c ≠ '%') (hc2 : c ≠ '_') (hc3 : c ≠ '\\') :
    likeMatch (c :: ps) (d :: s') =
      ((c.toLower == d.toLower) && likeMatch ps s') := by
  rw [likeMatch.eq_def]
  simp only [if_neg hc1, if_neg hc3]
  rw [if_neg hc2]

/-- A wildcard-free pattern followed by `%` matches exactly the texts that
start, case-insensitively, with the pattern. -/
theorem likeMatch_plain_percent (p : List Char) (s : List Char) (hp : noWild p) :
    likeMatch (p ++ ['%']) s = true ↔
      (p.map Char.toLower) <+: (s.map Char.toLower) := by
  induction p generalizing s with
  | nil =>
    simp only [List.nil_append, List.map_nil]
    constructor
    · intro _
      exact List.nil_prefix
    · intro _
      rw [likeMatch_percent]
      exact ⟨[], List.nil_suffix, rfl⟩
  | cons c p ih =>
    obtain ⟨hc1, hc2, hc3⟩ := hp c (List.mem_cons_self c p)
    have hp' : noWild p := fun d hd => hp d (List.mem_cons_of_mem c hd)
    cases s with
    | nil =>
      rw [List.cons_append, likeMatch_plain_nil c _ hc1 hc3]
      simp
    | cons d s' =>
      rw [List.cons_append, likeMatch_plain_cons c _ d s' hc1 hc2 hc3]
      simp only [List.map_cons, List.cons_prefix_cons, Bool.and_eq_true, beq_iff_eq]
      rw [ih s' hp']

/-- ILIKE with a wildcard-free pattern wrapped in `%` is exactly
case-insensitive substring containment. -/
theorem likeMatch_contains (p s : List Char) (hp : noWild p) :
    likeMatch ('%' :: (p ++ ['%'])) s = true ↔
      (p.map Char.toLower) <:+: (s.map Char.toLower) := by
  rw [likeMatch_percent]
  constructor
  · rintro ⟨s2, hs2, h⟩
    have hpre := (likeMatch_plain_percent p s2 hp).mp h
    exact List.infix_iff_prefix_suffix.mpr
      ⟨s2.map Char.toLower, hpre, hs2.map Char.toLower⟩
  · intro hinf
    obtain ⟨t, hpre, hsuf⟩ := List.infix_iff_prefix_suffix.mp hinf
    obtain ⟨v, hv⟩ := hsuf
    obtain ⟨s1, s2, hs, _hs1, hs2⟩ := List.map_eq_append_iff.mp hv.symm
    refine ⟨s2, ⟨s1, hs.symm⟩, (likeMatch_plain_percent p s2 hp).mpr ?_⟩
    rw [hs2]
    exact hpre

theorem isPrefixB_iff (n h : List Char) : isPrefixB n h = true ↔ n <+: h := by
  induction n generalizing h with
  | nil => simp [isPrefixB]
  | cons a n ih =>
    cases h with
    | nil => simp [isPrefixB]
    | cons b h' => simp [isPrefixB, List.cons_prefix_cons, ih]

theorem isInfixB_iff (n h : List Char) : isInfixB n h = true ↔ n <:+: h := by
  induction h with
  | nil => simp [isInfixB, List.isEmpty_iff]
  | cons b h' ih =>
    rw [isInfixB]
    simp only [Bool.or_eq_true, isPrefixB_iff, ih, List.infix_cons_iff]

theorem eq_decide_of_iff (b : Bool) (p : Prop) [Decidable p] (h : b = true ↔ p) :
    b = decide p := by
  by_cases hp : p
  · rw [decide_eq_true hp]
    exact h.mpr hp
  · rw [decide_eq_false hp]
    cases hb : b
    · rfl
    · exact absurd (h.mp hb) hp

/-- Under an already-trimmed, wildcard-free, non-empty search text, the
relational ILIKE filter is exactly the spec's case-insensitive substring
predicate. -/
theorem pgMatches_eq_decide (search : String) (r : HistoryRow)
    (htrim : jsTrim search = search) (hne : search ≠ "")
    (hnw : noWild search.data) :
    pgMatches search r = decide (promptContainsCI search r.prompt) := by
  have hact : searchActive search = true := by
    unfold searchActive
    rw [htrim]
    simp [hne]
  unfold pgMatches
  rw [hact, if_pos rfl, htrim]
  apply eq_decide_of_iff
  show likeMatch ("%" ++ search ++ "%").data r.prompt.data = true ↔ _
  have hdata : ("%" ++ search ++ "%").data = '%' :: (search.data ++ ['%']) := by
    rw [String.data_append, String.data_append]
    rfl
  rw [hdata]
  exact likeMatch_contains search.data r.prompt.data hnw

/-- The flat-file filter predicate is exactly the spec's case-insensitive
substring predicate, with no proviso. -/
theorem flatMatches_eq_decide (search : String) (it : FlatItem) :
    isInfixB (jsToLower search).data (jsToLower it.prompt).data =
      decide (promptContainsCI search it.prompt) :=
  eq_decide_of_iff _ _ (isInfixB_iff _ _)

theorem flatFiltered_length_le (history : List FlatItem) (search : String) :
    (flatFiltered history search).length ≤ history.length := by
  unfold flatFiltered
  split
  · exact Nat.le_refl _
  · exact List.length_filter_le _ _

/-! ## Claim C7 -/

/-- C7 counterexample: the flat-file variant returns records in stored
order, which can disagree with timestamp-descending order; and the
relational ILIKE filter treats `%` (and `_`, `\`) as wildcards and trims
the search text, so a returned record need not contain the literal search
text. -/
theorem c7_counterexample :
    (flatQuery flatOutOfOrder 0 10 "").items = flatOutOfOrder ∧
    ¬ (flatOutOfOrder.Pairwise (fun a b => b.timestamp ≤ a.timestamp)) ∧
    (pgQuery ⟨[rowAbc], 1⟩ "u" 0 .all "%").items = [rowAbc] ∧
    ¬ promptContainsCI "%" "abc" ∧
    (pgQuery ⟨[rowCat], 1⟩ "u" 0 .all " cat").items = [rowCat] ∧
    ¬ promptContainsCI " cat" "cat" := by decide

/-- C7 amended: the relational variant returns, for a trimmed search text
free of LIKE metacharacters, exactly the user's records whose prompt
contains it case-insensitively, ordered by timestamp descending (in
general the trimmed text is matched with ILIKE wildcard semantics); an
empty search applies no filter.  The flat-file variant filters by exact
case-insensitive substring but returns records in stored order. -/
theorem c7_amended :
    (∀ (db : PgDb) (u : String) (search : String),
       jsTrim search = search → search ≠ "" → noWild search.data →
       List.Perm (pgQuery db u 0 .all search).items
         (db.rows.filter (fun r =>
           r.user_id == u && decide (promptContainsCI search r.prompt))) ∧
       List.Sorted tsDesc (pgQuery db u 0 .all search).items) ∧
    (∀ (db : PgDb) (u : String),
       List.Perm (pgQuery db u 0 .all "").items (userRows db u) ∧
       List.Sorted tsDesc (pgQuery db u 0 .all "").items) ∧
    (∀ (history : List FlatItem) (n : Nat) (search : String),
       history.length ≤ n →
       (flatQuery history 0 n search).items = flatFiltered history search) ∧
    (∀ (history : List FlatItem) (search : String), search ≠ "" →
       flatFiltered history search =
         history.filter (fun it => decide (promptContainsCI search it.prompt))) ∧
    (∀ history : List FlatItem, flatFiltered history "" = history) := by
  refine ⟨?_, ?_, ?_, ?_, ?_⟩
  · intro db u search htrim hne hnw
    have hfil : pgFiltered db u search =
        db.rows.filter (fun r =>
          r.user_id == u && decide (promptContainsCI search r.prompt)) := by
      unfold pgFiltered
      apply List.filter_congr
      intro r _
      rw [pgMatches_eq_decide search r htrim hne hnw]
    constructor
    · show List.Perm (List.insertionSort tsDesc (pgFiltered db u search)) _
      rw [hfil]
      exact List.perm_insertionSort tsDesc _
    · show List.Sorted tsDesc (List.insertionSort tsDesc (pgFiltered db u search))
      exact List.sorted_insertionSort tsDesc _
  · intro db u
    have hfil : pgFiltered db u "" = userRows db u := by
      unfold pgFiltered userRows
      apply List.filter_congr
      intro r _
      rw [show pgMatches "" r = true from rfl, Bool.and_true]
    constructor
    · show List.Perm (List.insertionSort tsDesc (pgFiltered db u "")) _
      rw [hfil]
      exact List.perm_insertionSort tsDesc _
    · show List.Sorted tsDesc (List.insertionSort tsDesc (pgFiltered db u ""))
      exact List.sorted_insertionSort tsDesc _
  · intro history n search hlen
    show ((flatFiltered history search).drop (0 * n)).take n = _
    rw [Nat.zero_mul, List.drop_zero]
    exact List.take_of_length_le
      (Nat.le_trans (flatFiltered_length_le history search) hlen)
  · intro history search hne
    unfold flatFiltered
    rw [if_neg (by simp [hne])]
    apply List.filter_congr
    intro it _
    exact flatMatches_eq_decide search it
  · intro history
    rfl

/-- Witness for C7's amended statement on concrete stores. -/
theorem c7_witness :
    (List.Perm (pgQuery ⟨[rowAbc, rowCat], 1⟩ "u" 0 .all "cat").items
      ((⟨[rowAbc, rowCat], 1⟩ : PgDb).rows.filter (fun r =>
        r.user_id == "u" && decide (promptContainsCI "cat" r.prompt))) ∧
     List.Sorted tsDesc (pgQuery ⟨[rowAbc, rowCat], 1⟩ "u" 0 .all "cat").items) ∧
    (flatQuery flatOutOfOrder 0 10 "p").items = flatFiltered flatOutOfOrder "p" ∧
    flatFiltered flatOutOfOrder "p" =
      flatOutOfOrder.filter (fun it => decide (promptContainsCI "p" it.prompt)) ∧
    flatFiltered flatOutOfOrder "" = flatOutOfOrder :=
  ⟨c7_amended.1 ⟨[rowAbc, rowCat], 1⟩ "u" "cat" (by decide) (by decide) (by decide),
   c7_amended.2.2.1 flatOutOfOrder 10 "p" (by decide),
   c7_amended.2.2.2.1 flatOutOfOrder "p" (by decide),
   c7_amended.2.2.2.2 flatOutOfOrder⟩

end Calino
